import Mathlib

/-!
Shallow embedding of the ink2tex overlay drawing / recognition pipeline
(`src/ink2tex/ui/overlay.py`, `src/ink2tex/ui/preview.py`,
`src/ink2tex/core/api.py`) together with proofs of the specified
properties.

Coordinates are canvas-local integers (`QPoint` holds ints); the raster
pixel buffer is modelled deterministically as a base fill plus the ordered
list of line segments painted onto it, which is exactly the information
the Qt painter receives.
-/

namespace Ink2Tex

/-- A 2D integer coordinate in canvas-local space (`QPoint`). -/
structure Point where
  x : Int
  y : Int
deriving Repr, DecidableEq

/-- A drawn path: the ordered points of one stroke
(`TransparentOverlay.drawn_paths` elements). -/
abbrev Path := List Point

/-- An axis-aligned rectangle, as `QRect(x, y, width, height)`. -/
structure Rect where
  x : Int
  y : Int
  w : Int
  h : Int
deriving Repr, DecidableEq

/-- All points of all paths, in iteration order
(the double loop in `calculate_handwriting_bounds`). -/
def pathsPoints (paths : List Path) : List Point :=
  paths.flatten

/-- Embedding of `calculate_handwriting_bounds` (overlay.py lines
213-246): returns `none` when `drawn_paths` is empty (or holds no point
at all, the `min_x == inf` case); otherwise takes the min/max over every
point, pads by 30, clamps the padded corners to the canvas rectangle,
and takes `width = max(100, max_x - min_x)`,
`height = max(100, max_y - min_y)`. -/
def calculate_handwriting_bounds (canvasW canvasH : Int)
    (drawnPaths : List Path) : Option Rect :=
  if drawnPaths.isEmpty then none
  else
    match pathsPoints drawnPaths with
    | [] => none
    | p :: ps =>
      let minX := ps.foldl (fun a q => min a q.x) p.x
      let minY := ps.foldl (fun a q => min a q.y) p.y
      let maxX := ps.foldl (fun a q => max a q.x) p.x
      let maxY := ps.foldl (fun a q => max a q.y) p.y
      let padding : Int := 30
      let minX' := max 0 (minX - padding)
      let minY' := max 0 (minY - padding)
      let maxX' := min canvasW (maxX + padding)
      let maxY' := min canvasH (maxY + padding)
      let width := max 100 (maxX' - minX')
      let height := max 100 (maxY' - minY')
      some ⟨minX', minY', width, height⟩

/-- One painted line segment: `painter.drawLine(a, b)` with the overlay's
fixed pen (blue, width 3, round cap/join). -/
structure Seg where
  a : Point
  b : Point
deriving Repr, DecidableEq

/-- The base fill of the canvas pixmap: fully transparent
(`fill(transparent)`), or white with the named background image scaled
and centered over it (`upload_image` / the image branch of
`redraw_canvas`). -/
inductive RasterBase where
  | transparent : RasterBase
  | imageOn : String → RasterBase
deriving Repr, DecidableEq

/-- The canvas pixel buffer, modelled deterministically as its base fill
plus the ordered list of segments painted onto it. -/
structure Raster where
  base : RasterBase
  segs : List Seg
deriving Repr, DecidableEq

/-- The segments `redraw_canvas` replays for one path: consecutive point
pairs `drawLine(path[i-1], path[i])`; paths with fewer than 2 points
paint nothing. -/
def segsOfPath : Path → List Seg
  | [] => []
  | [_] => []
  | a :: b :: rest => ⟨a, b⟩ :: segsOfPath (b :: rest)

/-- Base fill chosen by `redraw_canvas` from `current_image`. -/
def baseOf : Option String → RasterBase
  | none => RasterBase.transparent
  | some img => RasterBase.imageOn img

/-- The raster a full `redraw_canvas` produces from `current_image` and
`drawn_paths`: base fill, then every path's segments in order. -/
def rasterOfPaths (img : Option String) (paths : List Path) : Raster :=
  ⟨baseOf img, (paths.map segsOfPath).flatten⟩

/-- The drawing-relevant state of `TransparentOverlay`. -/
structure OverlayState where
  drawing : Bool
  lastPoint : Point
  drawnPaths : List Path
  currentPath : Path
  currentImage : Option String
  canvasPixmap : Raster
deriving Repr, DecidableEq

/-- The overlay's initial drawing state (`__init__` + `setup_drawing`):
no in-progress stroke, empty stroke store, no background image,
transparent pixmap. -/
def initOverlay : OverlayState :=
  ⟨false, ⟨0, 0⟩, [], [], none, ⟨RasterBase.transparent, []⟩⟩

/-- Embedding of `mousePressEvent` with the left button inside the
canvas: start drawing, record the point as `last_point` and as the
singleton `current_path`. -/
def mousePress (p : Point) (s : OverlayState) : OverlayState :=
  { s with drawing := true, lastPoint := p, currentPath := [p] }

/-- Embedding of `mouseMoveEvent` inside the canvas while drawing: paint
the segment from `last_point` to the new point onto the pixmap, append
the point to `current_path`, advance `last_point`. -/
def mouseMove (p : Point) (s : OverlayState) : OverlayState :=
  if s.drawing then
    { s with
      canvasPixmap :=
        ⟨s.canvasPixmap.base, s.canvasPixmap.segs ++ [⟨s.lastPoint, p⟩]⟩,
      currentPath := s.currentPath ++ [p],
      lastPoint := p }
  else s

/-- Embedding of `mouseReleaseEvent`: stop drawing and commit
`current_path` to `drawn_paths` iff it has more than one point. -/
def mouseRelease (s : OverlayState) : OverlayState :=
  if s.drawing then
    { s with
      drawing := false,
      drawnPaths :=
        if 1 < s.currentPath.length then s.drawnPaths ++ [s.currentPath]
        else s.drawnPaths }
  else s

/-- Embedding of `redraw_canvas`: rebuild the pixmap from
`current_image` and `drawn_paths`. -/
def redraw_canvas (s : OverlayState) : OverlayState :=
  { s with canvasPixmap := rasterOfPaths s.currentImage s.drawnPaths }

/-- Embedding of `undo_last_stroke`: if any stroke is committed, pop the
most recent one and fully redraw. -/
def undo_last_stroke (s : OverlayState) : OverlayState :=
  if s.drawnPaths.isEmpty then s
  else redraw_canvas { s with drawnPaths := s.drawnPaths.dropLast }

/-- Embedding of `clear_canvas`: fill the pixmap transparent, empty the
stroke store, drop the background image. -/
def clear_canvas (s : OverlayState) : OverlayState :=
  { s with
    canvasPixmap := ⟨RasterBase.transparent, []⟩,
    drawnPaths := [],
    currentImage := none }

/-- The success branch of `upload_image` after a file is chosen: the
pixmap becomes white with the scaled, centered image and
`current_image` is set. `drawn_paths` is not touched. -/
def upload_image (img : String) (s : OverlayState) : OverlayState :=
  { s with
    canvasPixmap := ⟨RasterBase.imageOn img, []⟩,
    currentImage := some img }

/-- The guard of `generate_latex` (Python truthiness of
`self.drawn_paths or self.current_image`): the commit fires iff a stroke
is committed or a background image is set. -/
def generate_latex_fires (s : OverlayState) : Bool :=
  !s.drawnPaths.isEmpty || s.currentImage.isSome

/-- Drawing one stroke through the pointer events: press on the first
point, move through the rest, release. -/
def drawStroke (p : Path) (s : OverlayState) : OverlayState :=
  match p with
  | [] => s
  | q :: qs => mouseRelease (qs.foldl (fun st pt => mouseMove pt st) (mousePress q s))

/-- A configured Gemini model handle (`genai.GenerativeModel(...)`),
opaque to this core. -/
structure GeminiModel where
  name : String
deriving Repr, DecidableEq

/-- Configuration state of `GeminiAPIManager` (api.py lines 66-124):
the `configured` flag plus the optional model handle. -/
structure GeminiAPIManager where
  configured : Bool
  model : Option GeminiModel
deriving Repr, DecidableEq

/-- Embedding of `GeminiAPIManager.is_configured`:
`self.configured and self.model is not None`. -/
def is_configured (m : GeminiAPIManager) : Bool :=
  m.configured && m.model.isSome

/-- A callback invocation observed by the UI: the `finished` or `error`
signal payload of a `ConversionThread`, or a synchronous call of the
error callback. -/
inductive CallbackCall where
  | success : String → CallbackCall
  | error : String → CallbackCall
deriving Repr, DecidableEq

/-- What `GeminiAPIManager.convert_image_to_latex` does before
returning: the callbacks it invokes synchronously and the worker thread
it starts (identified by its image path), if any. -/
structure ConvertStart where
  immediate : List CallbackCall
  thread : Option String
deriving Repr, DecidableEq

/-- Embedding of `convert_image_to_latex` (api.py lines 126-150): when
the manager is not configured it invokes the error callback
synchronously with "Gemini API not configured" and returns None without
starting a thread; otherwise it starts a `ConversionThread` on the image
and returns it. -/
def convert_image_to_latex (m : GeminiAPIManager) (imagePath : String) :
    ConvertStart :=
  if is_configured m then ⟨[], some imagePath⟩
  else ⟨[CallbackCall.error "Gemini API not configured"], none⟩

/-- Embedding of `ConversionThread.run` (api.py lines 45-63): the whole
body sits in one try/except, so for every outcome of the boundary call
exactly one signal is emitted — `finished(text)` on success,
`error(str(e))` on any exception — and no exception escapes the
thread. -/
def conversionRun (outcome : Except String String) : CallbackCall :=
  match outcome with
  | Except.ok text => CallbackCall.success text
  | Except.error msg => CallbackCall.error msg

/-- The result-handling state of the overlay: the LatexBuffer
(`latex_edit` contents, mirrored into `latex_text` via the `textChanged`
signal that `setText` fires) and the `conversion_thread` reference. -/
structure UIState where
  latexEdit : String
  latexText : String
  conversionThreadRef : Option Nat
deriving Repr, DecidableEq

/-- Embedding of `on_latex_result` (overlay.py lines 530-537): put the
result text in the buffer and drop the thread reference. -/
def on_latex_result (text : String) (s : UIState) : UIState :=
  { s with latexEdit := text, latexText := text, conversionThreadRef := none }

/-- Embedding of `on_latex_error` (overlay.py lines 539-545): put
`"Error: " + error_text` in the buffer and drop the thread
reference. -/
def on_latex_error (msg : String) (s : UIState) : UIState :=
  { s with
    latexEdit := "Error: " ++ msg,
    latexText := "Error: " ++ msg,
    conversionThreadRef := none }

/-- Delivery of a worker signal to its connected overlay slot. -/
def deliverCallback (c : CallbackCall) (s : UIState) : UIState :=
  match c with
  | CallbackCall.success t => on_latex_result t s
  | CallbackCall.error m => on_latex_error m s

/-- The orchestration state visible across `generate_latex` /
`on_latex_result`: LatexBuffer contents, the set of worker threads
still running (in dispatch order), and `self.conversion_thread`. -/
structure OrchState where
  buffer : String
  liveThreads : List Nat
  threadRef : Option Nat
deriving Repr, DecidableEq

/-- The recognition-pipeline events: `submit id` is a `generate_latex`
commit dispatching worker `id`; `complete id text` is worker `id`
finishing and its still-connected `finished` signal being delivered. -/
inductive OrchEvent where
  | submit : Nat → OrchEvent
  | complete : Nat → String → OrchEvent
deriving Repr, DecidableEq

/-- One step of the pipeline as the code behaves (overlay.py lines
495-537): on submit, `generate_latex` calls `quit()` on the previous
thread — a no-op for a `run()` that starts no event loop — and
`wait(1000)`, which returns after the timeout with the worker possibly
still running; the new worker is dispatched and `conversion_thread`
repointed, while the old worker's signal stays connected. On complete,
the still-connected `finished` signal invokes `on_latex_result`
unconditionally — there is no request-id comparison — so the buffer
takes the completing worker's text whichever request it belonged to. -/
def orchStep (s : OrchState) (e : OrchEvent) : OrchState :=
  match e with
  | OrchEvent.submit id =>
      { s with liveThreads := s.liveThreads ++ [id], threadRef := some id }
  | OrchEvent.complete id text =>
      if id ∈ s.liveThreads then
        { buffer := text,
          liveThreads := s.liveThreads.erase id,
          threadRef := none }
      else s

/-- Run a sequence of pipeline events. -/
def orchRun (tr : List OrchEvent) (s : OrchState) : OrchState :=
  tr.foldl orchStep s

/-- The pipeline state when the overlay opens: empty buffer, no
workers. -/
def initOrch : OrchState := ⟨"", [], none⟩

/-- The preview-update machinery: `latex_text`, the single-shot timers
currently scheduled (their fire times in ms), and the log of texts
passed to the preview renderer. -/
structure PreviewSystem where
  latexText : String
  pendingTimers : List Nat
  renders : List String
deriving Repr, DecidableEq

/-- Embedding of `on_latex_changed` (overlay.py lines 547-550): store
the edit text and schedule a fresh independent
`QTimer.singleShot(500, update_preview)` — one new timer per text-change
event, none of the earlier timers is cancelled. -/
def on_latex_changed (now : Nat) (text : String) (s : PreviewSystem) :
    PreviewSystem :=
  { s with latexText := text, pendingTimers := s.pendingTimers ++ [now + 500] }

/-- One scheduled timer fires: `update_preview` renders `latex_text` as
it stands at fire time. -/
def fireTimer (s : PreviewSystem) : PreviewSystem :=
  match s.pendingTimers with
  | [] => s
  | _ :: rest =>
      { s with pendingTimers := rest, renders := s.renders ++ [s.latexText] }

/-- Apply a burst of text-change events ((time, new text) pairs). -/
def applyEdits (edits : List (Nat × String)) (s : PreviewSystem) :
    PreviewSystem :=
  edits.foldl (fun st e => on_latex_changed e.1 e.2 st) s

/-- Fire `n` scheduled timers in order. -/
def fireAllAux : Nat → PreviewSystem → PreviewSystem
  | 0, s => s
  | n + 1, s => fireAllAux n (fireTimer s)

/-- Fire every scheduled timer. For a burst within the 500 ms window,
every timer's fire time (edit time + 500) lies after the last edit of
the burst, so the real schedule is: all edits, then all fires — which
is what `fireAll ∘ applyEdits` runs. -/
def fireAll (s : PreviewSystem) : PreviewSystem :=
  fireAllAux s.pendingTimers.length s

/-- Clipboard effect of `copy_latex` (overlay.py lines 557-564): copies
`latex_text` iff the optional clipboard capability imported and the text
is non-empty (`if CLIPBOARD_AVAILABLE and self.latex_text:`); otherwise
the clipboard is untouched and nothing is raised. -/
def copy_latex (clipboardAvailable : Bool) (latexText : String)
    (clipboard : Option String) : Option String :=
  if clipboardAvailable = true ∧ latexText ≠ "" then some latexText
  else clipboard

/-- Clipboard effect of `close_overlay` (overlay.py lines 566-576):
`if self.latex_text and CLIPBOARD_AVAILABLE: pyperclip.copy(...)`. -/
def close_overlay_clipboard (clipboardAvailable : Bool) (latexText : String)
    (clipboard : Option String) : Option String :=
  if latexText ≠ "" ∧ clipboardAvailable = true then some latexText
  else clipboard

/-- Clipboard effect of `close_and_copy` (overlay.py lines 578-583):
same guard as `close_overlay`. -/
def close_and_copy_clipboard (clipboardAvailable : Bool) (latexText : String)
    (clipboard : Option String) : Option String :=
  if latexText ≠ "" ∧ clipboardAvailable = true then some latexText
  else clipboard

end Ink2Tex

namespace Ink2Tex

/-- Anchored minimum-size growth stays within `max cw (a + 100)`:
the box keeps its clamped left edge `a` and either ends at the clamped
right edge `min cw b` or extends exactly 100 units from `a`. -/
theorem grow_anchor_le (cw a b : Int) :
    a + max 100 (min cw b - a) ≤ max cw (a + 100) := by
  rcases max_cases (100 : Int) (min cw b - a) with ⟨h1, _⟩ | ⟨h1, _⟩ <;> rw [h1]
  · exact le_max_right _ _
  · have h2 : a + (min cw b - a) = min cw b := by ring
    rw [h2]
    exact le_trans (min_le_left _ _) (le_max_left _ _)

/-- C6: `computeBounds` applied to an empty stroke collection returns
None; on every collection of committed strokes (non-empty, each stroke
holding at least one point — committed strokes hold ≥ 2) it returns a
bounding box with width ≥ 100 and height ≥ 100. -/
theorem computeBounds_empty_none_nonempty_min (cw ch : Int)
    (paths : List Path) (hne : paths ≠ [])
    (hall : ∀ p ∈ paths, p ≠ []) :
    calculate_handwriting_bounds cw ch [] = none ∧
    ∃ r, calculate_handwriting_bounds cw ch paths = some r ∧
      100 ≤ r.w ∧ 100 ≤ r.h := by
  refine ⟨rfl, ?_⟩
  obtain ⟨p, rest, rfl⟩ := List.exists_cons_of_ne_nil hne
  have hp : p ≠ [] := hall p (List.mem_cons_self _ _)
  obtain ⟨q, qs, rfl⟩ := List.exists_cons_of_ne_nil hp
  simp only [calculate_handwriting_bounds, pathsPoints, List.flatten,
    List.cons_append, List.isEmpty_cons]
  exact ⟨_, rfl, le_max_left _ _, le_max_left _ _⟩

theorem computeBounds_empty_none_nonempty_min_witness :
    calculate_handwriting_bounds 600 400 [] = none ∧
    ∃ r, calculate_handwriting_bounds 600 400
        [[⟨10, 10⟩, ⟨50, 50⟩]] = some r ∧ 100 ≤ r.w ∧ 100 ≤ r.h :=
  computeBounds_empty_none_nonempty_min 600 400 [[⟨10, 10⟩, ⟨50, 50⟩]]
    (by decide) (by decide)

/-- C4 counterexample: on canvas 600×400, the stroke
[(590,390), (592,392)] lies inside the canvas, yet the returned box has
x + width = 560 + 100 = 660 > 600 — the box is not clamped to canvas
bounds after minimum-size enforcement. -/
theorem computeBounds_not_clamped_counterexample :
    ∃ r, calculate_handwriting_bounds 600 400
        [[⟨590, 390⟩, ⟨592, 392⟩]] = some r ∧ ¬(r.x + r.w ≤ 600) :=
  ⟨⟨560, 360, 100, 100⟩, by decide, by decide⟩

/-- C4 (amended): for every non-empty committed stroke collection the
box satisfies x ≥ 0, y ≥ 0; the padded extent is clamped to the canvas,
but minimum-size growth is anchored at the padded top-left corner
(extending only rightward/downward, not symmetrically), so the right and
bottom edges are only bounded by `max canvasW (x + 100)` and
`max canvasH (y + 100)`. -/
theorem computeBounds_clamp_amended (cw ch : Int)
    (paths : List Path) (hne : paths ≠ [])
    (hall : ∀ p ∈ paths, p ≠ []) :
    ∃ r, calculate_handwriting_bounds cw ch paths = some r ∧
      0 ≤ r.x ∧ 0 ≤ r.y ∧
      r.x + r.w ≤ max cw (r.x + 100) ∧
      r.y + r.h ≤ max ch (r.y + 100) := by
  obtain ⟨p, rest, rfl⟩ := List.exists_cons_of_ne_nil hne
  have hp : p ≠ [] := hall p (List.mem_cons_self _ _)
  obtain ⟨q, qs, rfl⟩ := List.exists_cons_of_ne_nil hp
  simp only [calculate_handwriting_bounds, pathsPoints, List.flatten,
    List.cons_append, List.isEmpty_cons]
  exact ⟨_, rfl, le_max_left _ _, le_max_left _ _,
    grow_anchor_le _ _ _, grow_anchor_le _ _ _⟩

theorem computeBounds_clamp_amended_witness :
    ∃ r, calculate_handwriting_bounds 600 400
        [[⟨590, 390⟩, ⟨592, 392⟩]] = some r ∧
      0 ≤ r.x ∧ 0 ≤ r.y ∧
      r.x + r.w ≤ max 600 (r.x + 100) ∧
      r.y + r.h ≤ max 400 (r.y + 100) :=
  computeBounds_clamp_amended 600 400 [[⟨590, 390⟩, ⟨592, 392⟩]]
    (by decide) (by decide)

/-- Folding `mouseMove` over a list of points, while drawing, paints
exactly the consecutive segments starting from `last_point` and extends
`current_path` by those points. -/
theorem foldl_mouseMove_spec (qs : List Point) (s : OverlayState)
    (h : s.drawing = true) :
    qs.foldl (fun st pt => mouseMove pt st) s =
      { s with
        canvasPixmap :=
          ⟨s.canvasPixmap.base,
           s.canvasPixmap.segs ++ segsOfPath (s.lastPoint :: qs)⟩,
        currentPath := s.currentPath ++ qs,
        lastPoint := (s.lastPoint :: qs).getLast (List.cons_ne_nil _ _) } := by
  induction qs generalizing s with
  | nil =>
    simp [segsOfPath]
  | cons q qs ih =>
    rw [List.foldl_cons]
    rw [show mouseMove q s =
      { s with
        canvasPixmap :=
          ⟨s.canvasPixmap.base, s.canvasPixmap.segs ++ [⟨s.lastPoint, q⟩]⟩,
        currentPath := s.currentPath ++ [q],
        lastPoint := q } by simp [mouseMove, h]]
    rw [ih { s with
        canvasPixmap :=
          ⟨s.canvasPixmap.base, s.canvasPixmap.segs ++ [⟨s.lastPoint, q⟩]⟩,
        currentPath := s.currentPath ++ [q],
        lastPoint := q } h]
    simp [segsOfPath, List.append_assoc, List.getLast_cons]

/-- Drawing one committed stroke (≥ 2 points) appends its segments to
the pixmap and the stroke itself to `drawn_paths`. -/
theorem drawStroke_spec (p : Path) (hp : 2 ≤ p.length) (s : OverlayState) :
    ∃ hne : p ≠ [],
    drawStroke p s =
      { s with
        drawing := false,
        drawnPaths := s.drawnPaths ++ [p],
        currentPath := p,
        lastPoint := p.getLast hne,
        canvasPixmap :=
          ⟨s.canvasPixmap.base, s.canvasPixmap.segs ++ segsOfPath p⟩ } := by
  match p, hp with
  | q :: qs, hp =>
    refine ⟨List.cons_ne_nil _ _, ?_⟩
    show mouseRelease _ = _
    rw [foldl_mouseMove_spec qs (mousePress q s) rfl]
    have hqs : qs ≠ [] := by
      cases qs with
      | nil => simp at hp
      | cons _ _ => exact List.cons_ne_nil _ _
    have hlen : 1 < (q :: qs).length := by
      simpa using hp
    simp [mousePress, mouseRelease, List.singleton_append, hlen, hqs]

/-- C5: after committing strokes [s1, s2, s3] through the pointer events
(so the buffer was built incrementally, segment by segment), one undo
yields a pixel buffer identical to a full redraw of [s1, s2], and the
stroke store holds exactly [s1, s2]. -/
theorem undo_equals_full_redraw (s1 s2 s3 : Path)
    (h1 : 2 ≤ s1.length) (h2 : 2 ≤ s2.length) (h3 : 2 ≤ s3.length) :
    (undo_last_stroke
        (drawStroke s3 (drawStroke s2 (drawStroke s1 initOverlay)))).canvasPixmap =
      rasterOfPaths none [s1, s2] ∧
    (undo_last_stroke
        (drawStroke s3 (drawStroke s2 (drawStroke s1 initOverlay)))).drawnPaths =
      [s1, s2] := by
  obtain ⟨hne1, e1⟩ := drawStroke_spec s1 h1 initOverlay
  rw [e1]
  obtain ⟨hne2, e2⟩ := drawStroke_spec s2 h2 _
  rw [e2]
  obtain ⟨hne3, e3⟩ := drawStroke_spec s3 h3 _
  rw [e3]
  simp [initOverlay, undo_last_stroke, redraw_canvas, rasterOfPaths, baseOf]

theorem undo_equals_full_redraw_witness :
    (undo_last_stroke
        (drawStroke [⟨4, 4⟩, ⟨5, 5⟩]
          (drawStroke [⟨2, 2⟩, ⟨3, 3⟩]
            (drawStroke [⟨0, 0⟩, ⟨1, 1⟩] initOverlay)))).canvasPixmap =
      rasterOfPaths none [[⟨0, 0⟩, ⟨1, 1⟩], [⟨2, 2⟩, ⟨3, 3⟩]] ∧
    (undo_last_stroke
        (drawStroke [⟨4, 4⟩, ⟨5, 5⟩]
          (drawStroke [⟨2, 2⟩, ⟨3, 3⟩]
            (drawStroke [⟨0, 0⟩, ⟨1, 1⟩] initOverlay)))).drawnPaths =
      [[⟨0, 0⟩, ⟨1, 1⟩], [⟨2, 2⟩, ⟨3, 3⟩]] :=
  undo_equals_full_redraw [⟨0, 0⟩, ⟨1, 1⟩] [⟨2, 2⟩, ⟨3, 3⟩] [⟨4, 4⟩, ⟨5, 5⟩]
    (by decide) (by decide) (by decide)

/-- C2 counterexample: draw the stroke [(0,0),(5,5)], then upload a
background image. The stroke store still holds the stroke drawn before
the image, and a full redraw of the store does not reproduce the
current raster (the redraw would re-stroke the old path over the new
image baseline). -/
theorem upload_keeps_old_strokes_counterexample :
    (upload_image "bg.png"
        (drawStroke [⟨0, 0⟩, ⟨5, 5⟩] initOverlay)).drawnPaths ≠ [] ∧
    rasterOfPaths
        (upload_image "bg.png"
          (drawStroke [⟨0, 0⟩, ⟨5, 5⟩] initOverlay)).currentImage
        (upload_image "bg.png"
          (drawStroke [⟨0, 0⟩, ⟨5, 5⟩] initOverlay)).drawnPaths ≠
      (upload_image "bg.png"
        (drawStroke [⟨0, 0⟩, ⟨5, 5⟩] initOverlay)).canvasPixmap := by
  constructor <;>
    simp [upload_image, drawStroke, initOverlay, mousePress, mouseMove,
      mouseRelease, rasterOfPaths, baseOf, segsOfPath]

/-- C2 (amended): replacing the background image resets the raster to
the new image baseline and records the image, but leaves the stroke
store untouched; the full-redraw reconstruction invariant therefore
holds after an upload only when no strokes predate the image. -/
theorem upload_keeps_strokes_resets_raster (img : String) (s : OverlayState) :
    (upload_image img s).drawnPaths = s.drawnPaths ∧
    (upload_image img s).currentImage = some img ∧
    (upload_image img s).canvasPixmap = ⟨RasterBase.imageOn img, []⟩ ∧
    (s.drawnPaths = [] →
      rasterOfPaths (upload_image img s).currentImage
          (upload_image img s).drawnPaths =
        (upload_image img s).canvasPixmap) := by
  refine ⟨rfl, rfl, rfl, fun he => ?_⟩
  simp [upload_image, rasterOfPaths, baseOf, he]

theorem upload_keeps_strokes_resets_raster_witness :
    (upload_image "bg.png" initOverlay).drawnPaths = initOverlay.drawnPaths ∧
    (upload_image "bg.png" initOverlay).currentImage = some "bg.png" ∧
    (upload_image "bg.png" initOverlay).canvasPixmap =
      ⟨RasterBase.imageOn "bg.png", []⟩ ∧
    (initOverlay.drawnPaths = [] →
      rasterOfPaths (upload_image "bg.png" initOverlay).currentImage
          (upload_image "bg.png" initOverlay).drawnPaths =
        (upload_image "bg.png" initOverlay).canvasPixmap) :=
  upload_keeps_strokes_resets_raster "bg.png" initOverlay

/-- C9: `clear_canvas` empties the stroke store, drops the background
image and fills the pixmap fully transparent, so the `generate_latex`
guard does not fire immediately after a clear — commit is a silent
no-op. -/
theorem clear_canvas_resets_everything (s : OverlayState) :
    (clear_canvas s).drawnPaths = [] ∧
    (clear_canvas s).currentImage = none ∧
    (clear_canvas s).canvasPixmap = ⟨RasterBase.transparent, []⟩ ∧
    generate_latex_fires (clear_canvas s) = false := by
  refine ⟨rfl, rfl, rfl, ?_⟩
  simp [clear_canvas, generate_latex_fires]

/-- C8: calling `convert_image_to_latex` while the manager is not
configured invokes the error callback synchronously with exactly
"Gemini API not configured", returns None, and starts no worker
thread. -/
theorem convert_unconfigured_error (m : GeminiAPIManager) (img : String)
    (h : is_configured m = false) :
    (convert_image_to_latex m img).immediate =
      [CallbackCall.error "Gemini API not configured"] ∧
    (convert_image_to_latex m img).thread = none := by
  simp [convert_image_to_latex, h]

theorem convert_unconfigured_error_witness :
    (convert_image_to_latex ⟨false, none⟩ "temp/temp_overlay_drawing.png").immediate =
      [CallbackCall.error "Gemini API not configured"] ∧
    (convert_image_to_latex ⟨false, none⟩ "temp/temp_overlay_drawing.png").thread =
      none :=
  convert_unconfigured_error ⟨false, none⟩ "temp/temp_overlay_drawing.png"
    (by decide)

/-- C7: every failure of the boundary call is emitted as exactly one
`error` signal (the thread's try/except never lets the exception escape,
so the process does not terminate), and delivering it leaves the
LatexBuffer showing an error string that contains the failure
message. -/
theorem recognition_failure_surfaced (msg : String) (s : UIState) :
    conversionRun (Except.error msg) = CallbackCall.error msg ∧
    ∃ pre post,
      (deliverCallback (conversionRun (Except.error msg)) s).latexEdit =
        pre ++ msg ++ post := by
  refine ⟨rfl, "Error: ", "", ?_⟩
  simp [deliverCallback, conversionRun, on_latex_error]

theorem recognition_failure_surfaced_witness :
    conversionRun (Except.error "network unreachable") =
      CallbackCall.error "network unreachable" ∧
    ∃ pre post,
      (deliverCallback (conversionRun (Except.error "network unreachable"))
          ⟨"", "", none⟩).latexEdit = pre ++ "network unreachable" ++ post :=
  recognition_failure_surfaced "network unreachable" ⟨"", "", none⟩

/-- C1 counterexample: submit request 1, then request 2 while 1 is still
pending; worker 2 completes with "B", then worker 1 completes with "A".
The first request's result is delivered to the LatexBuffer (final buffer
is "A", not "B") — the superseded result is not dropped. -/
theorem stale_result_delivered_counterexample :
    (orchRun [OrchEvent.submit 1, OrchEvent.submit 2,
              OrchEvent.complete 2 "B", OrchEvent.complete 1 "A"]
        initOrch).buffer = "A" ∧
    ("A" : String) ≠ "B" := by
  exact ⟨rfl, by decide⟩

/-- C1 (amended): submitting a second request while one is pending only
asks the first worker to quit and waits a bounded time; no request-id
filtering exists, so whichever worker's signal is delivered last owns
the buffer: if the first worker completes after the second, the first
request's result overwrites the second's, and only if the first
completes before the second does the second's result stand. -/
theorem second_submit_last_writer_wins (t1 t2 : String) :
    (orchRun [OrchEvent.submit 1, OrchEvent.submit 2,
              OrchEvent.complete 1 t1, OrchEvent.complete 2 t2]
        initOrch).buffer = t2 ∧
    (orchRun [OrchEvent.submit 1, OrchEvent.submit 2,
              OrchEvent.complete 2 t2, OrchEvent.complete 1 t1]
        initOrch).buffer = t1 := by
  constructor <;> rfl

/-- Auxiliary: applying a burst of edits leaves the render log
unchanged (edits only schedule timers). -/
theorem applyEdits_renders (edits : List (Nat × String)) (s : PreviewSystem) :
    (applyEdits edits s).renders = s.renders := by
  induction edits generalizing s with
  | nil => rfl
  | cons e es ih => simpa [applyEdits, on_latex_changed] using ih _

/-- Auxiliary: each edit of a burst schedules exactly one timer. -/
theorem applyEdits_timers_length (edits : List (Nat × String))
    (s : PreviewSystem) :
    (applyEdits edits s).pendingTimers.length =
      s.pendingTimers.length + edits.length := by
  induction edits generalizing s with
  | nil => rfl
  | cons e es ih =>
    show (applyEdits es _).pendingTimers.length = _
    rw [ih]
    simp [on_latex_changed]
    omega

/-- Auxiliary: after a burst, `latex_text` holds the last edit's
text. -/
theorem applyEdits_latexText (edits : List (Nat × String))
    (s : PreviewSystem) (hne : edits ≠ []) :
    (applyEdits edits s).latexText = (edits.getLast hne).2 := by
  induction edits generalizing s with
  | nil => exact absurd rfl hne
  | cons e es ih =>
    cases es with
    | nil => rfl
    | cons f fs =>
      show (applyEdits (f :: fs) _).latexText = _
      rw [ih _ (List.cons_ne_nil _ _)]
      simp [List.getLast_cons]

/-- Auxiliary: firing all `n` scheduled timers renders the current
`latex_text` exactly `n` times. -/
theorem fireAllAux_spec (n : Nat) (s : PreviewSystem)
    (h : s.pendingTimers.length = n) :
    fireAllAux n s =
      ⟨s.latexText, [], s.renders ++ List.replicate n s.latexText⟩ := by
  induction n generalizing s with
  | zero =>
    cases s with
    | mk t p r =>
      simp only [List.length_eq_zero] at h
      simp [fireAllAux, h]
  | succ n ih =>
    obtain ⟨t, rest, hp⟩ : ∃ t rest, s.pendingTimers = t :: rest := by
      cases hl : s.pendingTimers with
      | nil => rw [hl] at h; simp at h
      | cons a l => exact ⟨a, l, rfl⟩
    show fireAllAux n (fireTimer s) = _
    rw [show fireTimer s =
      { s with pendingTimers := rest, renders := s.renders ++ [s.latexText] } by
        simp [fireTimer, hp]]
    rw [ih _ (by rw [hp] at h; simpa using h)]
    simp [List.replicate_succ, List.append_assoc]

/-- C3 counterexample: two edits at t=0 ("a") and t=100 ("ab") — inside
one ≈500 ms window — leave two scheduled timers; after both fire, the
preview renderer has been invoked twice (both times with the final
text), not exactly once. -/
theorem debounce_two_renders_counterexample :
    (fireAll (applyEdits [(0, "a"), (100, "ab")] ⟨"", [], []⟩)).renders =
      ["ab", "ab"] ∧
    (["ab", "ab"] : List String).length ≠ 1 := by
  exact ⟨rfl, by decide⟩

/-- C3 (amended): each text change schedules its own independent 500 ms
single-shot timer, so a burst of n edits within the window triggers n
preview renders, not one — but every one of those renders reads
`latex_text` at fire time and therefore shows the state after the last
edit of the burst. -/
theorem debounce_burst_renders_final_state (edits : List (Nat × String))
    (s : PreviewSystem) (h0 : s.pendingTimers = []) (hne : edits ≠ []) :
    (fireAll (applyEdits edits s)).renders =
      s.renders ++
        List.replicate edits.length (edits.getLast hne).2 := by
  have hlen : (applyEdits edits s).pendingTimers.length = edits.length := by
    rw [applyEdits_timers_length, h0]
    simp
  have := fireAllAux_spec (applyEdits edits s).pendingTimers.length
    (applyEdits edits s) rfl
  rw [fireAll, this]
  rw [applyEdits_renders, applyEdits_latexText edits s hne, hlen]

theorem debounce_burst_renders_final_state_witness :
    (fireAll (applyEdits [(0, "a"), (100, "ab"), (200, "abc")]
        ⟨"", [], []⟩)).renders =
      [] ++ List.replicate 3 "abc" :=
  debounce_burst_renders_final_state [(0, "a"), (100, "ab"), (200, "abc")]
    ⟨"", [], []⟩ rfl (by decide)

/-- C10: the clipboard is never written when the buffer is empty or the
clipboard capability is missing — all three operations leave it
unchanged — and when the buffer is non-empty and the capability exists,
each copies exactly the buffer text. -/
theorem clipboard_written_only_when_nonempty (avail : Bool) (text : String)
    (clip : Option String) :
    (text = "" ∨ avail = false →
      copy_latex avail text clip = clip ∧
      close_overlay_clipboard avail text clip = clip ∧
      close_and_copy_clipboard avail text clip = clip) ∧
    (text ≠ "" → avail = true →
      copy_latex avail text clip = some text ∧
      close_overlay_clipboard avail text clip = some text ∧
      close_and_copy_clipboard avail text clip = some text) := by
  constructor
  · rintro (h | h) <;>
      simp [copy_latex, close_overlay_clipboard, close_and_copy_clipboard, h]
  · intro ht ha
    simp [copy_latex, close_overlay_clipboard, close_and_copy_clipboard, ht, ha]

theorem clipboard_written_only_when_nonempty_witness :
    (copy_latex true "" (some "old") = some "old" ∧
      close_overlay_clipboard true "" (some "old") = some "old" ∧
      close_and_copy_clipboard true "" (some "old") = some "old") ∧
    (copy_latex true "x^2" (some "old") = some "x^2" ∧
      close_overlay_clipboard true "x^2" (some "old") = some "x^2" ∧
      close_and_copy_clipboard true "x^2" (some "old") = some "x^2") :=
  ⟨(clipboard_written_only_when_nonempty true "" (some "old")).1 (Or.inl rfl),
   (clipboard_written_only_when_nonempty true "x^2" (some "old")).2
     (by decide) rfl⟩

end Ink2Tex
